import Mathlib

/-!
Verification of the aipye title-suggestion service.

The development shallow-embeds the TypeScript sources
`src/app/api/public/titles/route.ts`, `src/app/api/suggest/route.ts`
(and the older copy of the public route in `src/unnamed/part_001`)
into Lean.  JavaScript runtime values that can reach the analysed code
are modelled by the inductive type `JsValue`:

* `undefinedVal` is the JS value `undefined`, `null` the JS `null`;
* `num` carries an integer: the JSON numeric literals exercised by the
  routes are integers, so the model restricts `JSON.parse` to integer
  literals (fractional/exponent literals are rejected by the modelled
  parser; no claim depends on them);
* `fn throws ret` models a zero-argument function value: invoking it
  either throws (`throws = true`) or returns `ret`.  Only the `text`
  accessors of the model-response object are ever invoked;
* `obj` keeps fields in insertion order, as JS objects do for string
  keys.

Strings are Lean `String`s viewed as sequences of Unicode scalar
values; `s.length` in JS is modelled by `String.length` (the
UTF-16/codepoint distinction is outside the model).
-/

inductive JsValue where
  | undefinedVal : JsValue
  | null : JsValue
  | bool : Bool → JsValue
  | num : Int → JsValue
  | str : String → JsValue
  | fn : Bool → JsValue → JsValue
  | arr : List JsValue → JsValue
  | obj : List (String × JsValue) → JsValue
namespace JsValue

/-- JS truthiness: `undefined`, `null`, `false`, `0` and `""` are falsy;
every other value (including every object, array and function) is truthy. -/
def truthy : JsValue → Bool
  | .undefinedVal => false
  | .null => false
  | .bool b => b
  | .num n => n != 0
  | .str s => s != ""
  | .fn _ _ => true
  | .arr _ => true
  | .obj _ => true

/-- `typeof v === "object"` together with truthiness, i.e. the guard
`v && typeof v === "object"` used throughout the routes: true exactly for
arrays and (non-null) objects.  (`typeof null` is `"object"` in JS, but
`null` is falsy, so the combined guard excludes it.) -/
def isObjLike : JsValue → Bool
  | .arr _ => true
  | .obj _ => true
  | _ => false

/-- `typeof v === "function"`. -/
def isFn : JsValue → Bool
  | .fn _ _ => true
  | _ => false

/-- `typeof v === "string"`. -/
def isStr : JsValue → Bool
  | .str _ => true
  | _ => false

end JsValue

/-- Property access `v[k]` on a value that is not `null`/`undefined`
(accessing a property of `null`/`undefined` throws in JS and is modelled
separately at each unguarded access site).  Objects look the key up in
insertion order; arrays and strings expose their `length`; every other
access yields `undefined`.  A model function value has arity 0, hence
`length` 0. -/
def getProp (v : JsValue) (k : String) : JsValue :=
  match v with
  | .obj fields =>
    match fields.lookup k with
    | some x => x
    | none => .undefinedVal
  | .arr xs => if k = "length" then .num xs.length else .undefinedVal
  | .str s => if k = "length" then .num s.length else .undefinedVal
  | .fn _ _ => if k = "length" then .num 0 else .undefinedVal
  | _ => .undefinedVal

/-- Optional chaining `v?.[k]`: `undefined` when `v` is nullish,
otherwise a plain property access. -/
def optProp (v : JsValue) (k : String) : JsValue :=
  match v with
  | .undefinedVal => .undefinedVal
  | .null => .undefinedVal
  | v => getProp v k

/-- The nullish-coalescing operator `a ?? b`. -/
def jsNullish (a b : JsValue) : JsValue :=
  match a with
  | .undefinedVal => b
  | .null => b
  | a => a

/-- The logical-or operator `a || b` (value-returning, as in JS). -/
def jsOr (a b : JsValue) : JsValue :=
  if a.truthy then a else b

/-- `Object.values(v)`: field values in insertion order for objects,
the elements for arrays, nothing for primitives (the routes only apply
it to values that passed a `typeof v === "object"` guard). -/
def jsObjectValues : JsValue → List JsValue
  | .obj fields => fields.map (·.2)
  | .arr xs => xs
  | _ => []

/-- Decimal rendering of an integer, as JS `String(n)` produces. -/
def intToDecimal (n : Int) : String :=
  if n < 0 then "-" ++ Nat.repr n.natAbs else Nat.repr n.natAbs

mutual

/-- One array element inside a join: `null` and `undefined` become the
empty string, everything else its string coercion (`String(v)`). -/
def jsArrElem : JsValue → String
  | .undefinedVal => ""
  | .null => ""
  | .bool true => "true"
  | .bool false => "false"
  | .num n => intToDecimal n
  | .str s => s
  | .fn _ _ => "function () {}"
  | .arr xs => jsArrJoin xs
  | .obj _ => "[object Object]"

/-- Comma-joining of array elements used by `String(array)` and
`array.join(",")`. -/
def jsArrJoin : List JsValue → String
  | [] => ""
  | x :: xs => jsArrElem x ++ jsArrJoinTail xs

/-- The tail of a join: each further element is preceded by the
separator. -/
def jsArrJoinTail : List JsValue → String
  | [] => ""
  | x :: xs => "," ++ jsArrElem x ++ jsArrJoinTail xs

end

/-- JS string coercion `String(v)` for the data values of the model.
Arrays join their elements with commas, where `null`/`undefined`
elements render as the empty string; objects render as
`"[object Object]"`.  The source text of a function value is not
modelled (no analysed code path stringifies a bare function). -/
def jsToString : JsValue → String
  | .undefinedVal => "undefined"
  | .null => "null"
  | .bool true => "true"
  | .bool false => "false"
  | .num n => intToDecimal n
  | .str s => s
  | .fn _ _ => "function () {}"
  | .arr xs => jsArrJoin xs
  | .obj _ => "[object Object]"

/-!
String helpers shared by the routes: `.trim()`, `.split(",")`,
`.slice(0, 45)` and the `Set`-based deduplication.
-/

/-- The whitespace characters recognised by the model of JS
`String.prototype.trim` (space, tab, line feed, carriage return,
vertical tab, form feed). -/
def jsWsChar (c : Char) : Bool :=
  c = ' ' || c = '\t' || c = '\n' || c = '\r' || c = '\x0b' || c = '\x0c'

/-- Core of `trim` on character lists: drop whitespace from both ends. -/
def trimChars (l : List Char) : List Char :=
  ((l.dropWhile jsWsChar).reverse.dropWhile jsWsChar).reverse

/-- Model of JS `s.trim()`. -/
def jsTrim (s : String) : String :=
  ⟨trimChars s.data⟩

/-- Splitting on a comma, as `s.split(",")`: every comma separates,
`""` yields `[""]`. -/
def splitCommaChars : List Char → List (List Char)
  | [] => [[]]
  | c :: rest =>
    if c = ',' then [] :: splitCommaChars rest
    else
      match splitCommaChars rest with
      | [] => [[c]]
      | piece :: pieces => (c :: piece) :: pieces

/-- Model of JS `s.split(",")`. -/
def jsSplitComma (s : String) : List String :=
  (splitCommaChars s.data).map (fun l => ⟨l⟩)

/-- Model of `t.length > 45 ? t.slice(0, 45).trim() : t`
(the per-title truncation of the normalizers). -/
def truncate45 (t : String) : String :=
  if 45 < t.data.length then jsTrim ⟨t.data.take 45⟩ else t

/-- The shared post-processing of both normalizers:
`titles.map(t => String(t).trim()).filter(t => t.length > 0).map(truncate)`
(`String(t)` is the identity here because every element is already a
string, and `filter(Boolean)` on strings drops exactly `""`). -/
def postProcess (l : List String) : List String :=
  ((l.map jsTrim).filter (fun t => t != "")).map truncate45

/-- Deduplication with first-occurrence order, as
`Array.from(new Set(titles))`: keep an element only if it has not been
seen before. -/
def dedupFirstAux (seen : List String) : List String → List String
  | [] => []
  | x :: xs =>
    if x ∈ seen then dedupFirstAux seen xs
    else x :: dedupFirstAux (x :: seen) xs

/-- `Array.from(new Set(l))`. -/
def dedupFirst (l : List String) : List String :=
  dedupFirstAux [] l

/-!
The title normalizer of the public route
(`normalizeTitlesFromJson`, src/app/api/public/titles/route.ts:80-111).
-/

/-- The element mapper of the public normalizer's array branch
(route.ts:88-99): a string is trimmed; a truthy object takes
`title ?? text ?? suggestion` when that is a string, else the first
string-valued property, else its string coercion; every other value is
string-coerced and trimmed. -/
def elemToTitle (s : JsValue) : String :=
  match s with
  | .str t => jsTrim t
  | s =>
    if s.truthy && s.isObjLike then
      match jsNullish (getProp s "title") (jsNullish (getProp s "text") (getProp s "suggestion")) with
      | .str t => jsTrim t
      | _ =>
        match (jsObjectValues s).find? JsValue.isStr with
        | some (.str t) => jsTrim t
        | _ => jsTrim (jsToString s)
    else jsTrim (jsToString s)

/-- Source selection of the public normalizer (route.ts:81-82):
`(json && typeof json === "object" ? json : {})["titles"] ?? ...["suggestions"]`. -/
def selectSrc (json : JsValue) : JsValue :=
  let o := if json.truthy && json.isObjLike then json else .obj []
  jsNullish (getProp o "titles") (getProp o "suggestions")

/-- The pre-deduplication title list of the public normalizer
(route.ts:83-109). -/
def rawTitles (json : JsValue) : List String :=
  match selectSrc json with
  | .str s => ((jsSplitComma s).map jsTrim).filter (fun t => t != "")
  | .arr xs => (xs.map elemToTitle).filter (fun t => t != "")
  | .obj fields =>
    match jsNullish (getProp (.obj fields) "title")
        (jsNullish (getProp (.obj fields) "text") (getProp (.obj fields) "suggestion")) with
    | .str t => [jsTrim t]
    | _ => []
  | _ => []

/-- `normalizeTitlesFromJson` of the public route (route.ts:80-111). -/
def normalizeTitlesFromJson (json : JsValue) : List String :=
  dedupFirst (postProcess (rawTitles json))

/-!
The title normalizer of the older route copy
(`normalizeTitlesFromJson`, src/unnamed/part_001:77-97).  Its array
branch evaluates `(s?.title || s?.text || s?.suggestion || String(s)).trim()`,
which throws a `TypeError` when the `||` chain selects a truthy
non-string; the result type is therefore `Except Unit _`
(`.error ()` marks a thrown exception).
-/

/-- The element mapper of the part_001 array branch (part_001:86). -/
def elemToTitleP1 (s : JsValue) : Except Unit String :=
  match s with
  | .str t => .ok (jsTrim t)
  | s =>
    match jsOr (optProp s "title")
        (jsOr (optProp s "text") (jsOr (optProp s "suggestion") (.str (jsToString s)))) with
    | .str t => .ok (jsTrim t)
    | _ => .error ()

/-- Element-wise mapping that propagates a thrown exception. -/
def mapTitlesP1 : List JsValue → Except Unit (List String)
  | [] => .ok []
  | x :: xs =>
    match elemToTitleP1 x, mapTitlesP1 xs with
    | .ok t, .ok ts => .ok (t :: ts)
    | _, _ => .error ()

/-- Source selection of the part_001 normalizer
(`json?.titles ?? json?.suggestions`, part_001:79). -/
def selectSrcP1 (json : JsValue) : JsValue :=
  jsNullish (optProp json "titles") (optProp json "suggestions")

/-- The pre-deduplication title list of the part_001 normalizer
(part_001:78-90); the array branch has no intermediate
`filter(Boolean)`. -/
def rawTitlesP1 (json : JsValue) : Except Unit (List String) :=
  match selectSrcP1 json with
  | .str s => .ok (((jsSplitComma s).map jsTrim).filter (fun t => t != ""))
  | .arr xs => mapTitlesP1 xs
  | .obj fields =>
    match jsOr (getProp (.obj fields) "title")
        (jsOr (getProp (.obj fields) "text") (getProp (.obj fields) "suggestion")) with
    | .str t => .ok [jsTrim t]
    | _ => .ok []
  | _ => .ok []

/-- `normalizeTitlesFromJson` of part_001 (part_001:77-97). -/
def normalizeTitlesP1 (json : JsValue) : Except Unit (List String) :=
  match rawTitlesP1 json with
  | .ok l => .ok (dedupFirst (postProcess l))
  | .error e => .error e

/-!
`JSON.stringify` (the text extractor's last resort).  It yields no
string (JS `undefined`) exactly when the stringified value itself is
`undefined` or a function; inside arrays such values render as `null`,
inside objects the field is skipped.
-/

/-- Two-digit lower-case hex rendering of a value < 256. -/
def hexDigit (n : Nat) : Char :=
  if n < 10 then Char.ofNat ('0'.toNat + n) else Char.ofNat ('a'.toNat + (n - 10))

/-- JSON escaping of one character inside a quoted string. -/
def escapeJsonChar (c : Char) : String :=
  if c = '"' then "\\\""
  else if c = '\\' then "\\\\"
  else if c = '\n' then "\\n"
  else if c = '\t' then "\\t"
  else if c = '\r' then "\\r"
  else if c = '\x08' then "\\b"
  else if c = '\x0c' then "\\f"
  else if c.toNat < 32 then
    "\\u00" ++ String.mk [hexDigit (c.toNat / 16), hexDigit (c.toNat % 16)]
  else String.singleton c

/-- A JSON quoted string literal for `s`. -/
def quoteJson (s : String) : String :=
  "\"" ++ String.join (s.data.map escapeJsonChar) ++ "\""

mutual

/-- `JSON.stringify` of a value in array-element position (`undefined`
and functions render as `null` there). -/
def stringifyElem : JsValue → String
  | .undefinedVal => "null"
  | .fn _ _ => "null"
  | .null => "null"
  | .bool true => "true"
  | .bool false => "false"
  | .num n => intToDecimal n
  | .str s => quoteJson s
  | .arr xs => "[" ++ stringifyElems xs ++ "]"
  | .obj fields => "\x7b" ++ String.intercalate "," (renderFields fields) ++ "\x7d"

/-- Comma-joined stringification of array elements. -/
def stringifyElems : List JsValue → String
  | [] => ""
  | x :: xs => stringifyElem x ++ stringifyElemsTail xs

/-- Tail of the element join. -/
def stringifyElemsTail : List JsValue → String
  | [] => ""
  | x :: xs => "," ++ stringifyElem x ++ stringifyElemsTail xs

/-- The rendered `"key":value` members of an object; fields holding
`undefined` or a function are skipped, as `JSON.stringify` does. -/
def renderFields : List (String × JsValue) → List String
  | [] => []
  | (_, .undefinedVal) :: fields => renderFields fields
  | (_, .fn _ _) :: fields => renderFields fields
  | (k, v) :: fields => (quoteJson k ++ ":" ++ stringifyElem v) :: renderFields fields

end

/-- `JSON.stringify(v)`: `none` models the JS value `undefined`,
produced exactly for a top-level `undefined` or function value. -/
def jsonStringify : JsValue → Option String
  | .undefinedVal => none
  | .fn _ _ => none
  | v => some (stringifyElem v)

/-!
`JSON.parse`, modelled as a fuel-indexed recursive-descent parser over
the character list.  The model deviates from JS in one documented way:
numeric literals with a fraction or exponent part are rejected (the
`num` constructor carries an integer).  `none` models a thrown
`SyntaxError`.
-/

/-- JSON insignificant whitespace. -/
def jsonWsChar (c : Char) : Bool :=
  c = ' ' || c = '\t' || c = '\n' || c = '\r'

/-- Skip insignificant whitespace. -/
def skipWsChars (l : List Char) : List Char :=
  l.dropWhile jsonWsChar

/-- The value of a hexadecimal digit. -/
def hexVal (c : Char) : Option Nat :=
  if '0' ≤ c ∧ c ≤ '9' then some (c.toNat - '0'.toNat)
  else if 'a' ≤ c ∧ c ≤ 'f' then some (c.toNat - 'a'.toNat + 10)
  else if 'A' ≤ c ∧ c ≤ 'F' then some (c.toNat - 'A'.toNat + 10)
  else none

/-- The single-character escapes of JSON strings. -/
def simpleEsc (e : Char) : Option Char :=
  if e = '"' then some '"'
  else if e = '\\' then some '\\'
  else if e = '/' then some '/'
  else if e = 'b' then some '\x08'
  else if e = 'f' then some '\x0c'
  else if e = 'n' then some '\n'
  else if e = 'r' then some '\r'
  else if e = 't' then some '\t'
  else none

/-- Body of a JSON string literal, positioned after the opening quote;
returns the decoded characters and the rest after the closing quote.
Raw control characters and unknown escapes are syntax errors. -/
def parseStringBody : List Char → Option (List Char × List Char)
  | [] => none
  | '"' :: r => some ([], r)
  | '\\' :: 'u' :: h1 :: h2 :: h3 :: h4 :: r =>
    (match hexVal h1, hexVal h2, hexVal h3, hexVal h4, parseStringBody r with
     | some a, some b, some c, some d, some (cs, rest) =>
       some (Char.ofNat (((a * 16 + b) * 16 + c) * 16 + d) :: cs, rest)
     | _, _, _, _, _ => none)
  | '\\' :: e :: r =>
    (match simpleEsc e, parseStringBody r with
     | some ch, some (cs, rest) => some (ch :: cs, rest)
     | _, _ => none)
  | c :: r =>
    if c.toNat < 32 then none
    else
      match parseStringBody r with
      | some (cs, rest) => some (c :: cs, rest)
      | none => none

/-- Take the maximal run of leading decimal digits. -/
def splitDigits : List Char → List Char × List Char
  | [] => ([], [])
  | c :: r =>
    if c.isDigit then
      match splitDigits r with
      | (ds, rest) => (c :: ds, rest)
    else ([], c :: r)

/-- The natural number denoted by a digit run. -/
def natFromDigits (ds : List Char) : Nat :=
  ds.foldl (fun n c => n * 10 + (c.toNat - '0'.toNat)) 0

/-- Unsigned JSON integer part: `0`, or a nonzero digit followed by
digits (leading zeros are a syntax error, as in JSON). -/
def parseUIntLit : List Char → Option (Nat × List Char)
  | [] => none
  | c :: r =>
    if c = '0' then
      match r with
      | c2 :: _ => if c2.isDigit then none else some (0, r)
      | [] => some (0, [])
    else if c.isDigit then
      match splitDigits r with
      | (ds, rest) => some (natFromDigits (c :: ds), rest)
    else none

/-- A JSON numeric token restricted to integers: an optional minus sign
and an integer part; a following `.`, `e` or `E` (a fraction or
exponent) is rejected by the model. -/
def parseNumberToken (l : List Char) : Option (Int × List Char) :=
  let signed : Option (Int × List Char) :=
    match l with
    | '-' :: r =>
      (match parseUIntLit r with
       | some (n, rest) => some (-(n : Int), rest)
       | none => none)
    | l =>
      match parseUIntLit l with
      | some (n, rest) => some ((n : Int), rest)
      | none => none
  match signed with
  | some (n, rest) =>
    (match rest with
     | c :: _ => if c = '.' || c = 'e' || c = 'E' then none else some (n, rest)
     | [] => some (n, []))
  | none => none

/-- Insertion of one parsed object member: a duplicate key overwrites
the earlier value in place (JS semantics: last duplicate wins, original
insertion position kept). -/
def objInsert (fields : List (String × JsValue)) (k : String) (v : JsValue) :
    List (String × JsValue) :=
  if fields.any (fun p => p.1 = k) then
    fields.map (fun p => if p.1 = k then (k, v) else p)
  else fields ++ [(k, v)]

/-- Fold raw members into an object field list. -/
def buildObj (members : List (String × JsValue)) : List (String × JsValue) :=
  members.foldl (fun fields m => objInsert fields m.1 m.2) []

mutual

/-- One JSON value, with leading whitespace skipped; fuel-indexed. -/
def parseVal : Nat → List Char → Option (JsValue × List Char)
  | 0, _ => none
  | fuel + 1, l =>
    match skipWsChars l with
    | 'n' :: 'u' :: 'l' :: 'l' :: r => some (.null, r)
    | 't' :: 'r' :: 'u' :: 'e' :: r => some (.bool true, r)
    | 'f' :: 'a' :: 'l' :: 's' :: 'e' :: r => some (.bool false, r)
    | '"' :: r =>
      (match parseStringBody r with
       | some (cs, rest) => some (.str ⟨cs⟩, rest)
       | none => none)
    | '[' :: r => parseArrItems fuel (skipWsChars r)
    | '{' :: r => parseObjItems fuel (skipWsChars r)
    | c :: r =>
      if c = '-' || c.isDigit then
        match parseNumberToken (c :: r) with
        | some (n, rest) => some (.num n, rest)
        | none => none
      else none
    | [] => none

/-- Array items, positioned after `[` with whitespace skipped. -/
def parseArrItems : Nat → List Char → Option (JsValue × List Char)
  | 0, _ => none
  | fuel + 1, l =>
    match l with
    | ']' :: r => some (.arr [], r)
    | l =>
      match parseVal fuel l with
      | some (v, r) =>
        (match parseArrTail fuel r with
         | some (vs, rest) => some (.arr (v :: vs), rest)
         | none => none)
      | none => none

/-- After one array element: either `]`, or `,` and further elements. -/
def parseArrTail : Nat → List Char → Option (List JsValue × List Char)
  | 0, _ => none
  | fuel + 1, l =>
    match skipWsChars l with
    | ']' :: r => some ([], r)
    | ',' :: r =>
      (match parseVal fuel r with
       | some (v, r2) =>
         (match parseArrTail fuel r2 with
          | some (vs, rest) => some (v :: vs, rest)
          | none => none)
       | none => none)
    | _ => none

/-- One `"key": value` member. -/
def parseMember : Nat → List Char → Option ((String × JsValue) × List Char)
  | 0, _ => none
  | fuel + 1, l =>
    match skipWsChars l with
    | '"' :: r =>
      (match parseStringBody r with
       | some (cs, r2) =>
         (match skipWsChars r2 with
          | ':' :: r3 =>
            (match parseVal fuel r3 with
             | some (v, rest) => some ((⟨cs⟩, v), rest)
             | none => none)
          | _ => none)
       | none => none)
    | _ => none

/-- Object members, positioned after `{` with whitespace skipped. -/
def parseObjItems : Nat → List Char → Option (JsValue × List Char)
  | 0, _ => none
  | fuel + 1, l =>
    match l with
    | '}' :: r => some (.obj [], r)
    | l =>
      match parseMember fuel l with
      | some (m, r) =>
        (match parseObjTail fuel r with
         | some (ms, rest) => some (.obj (buildObj (m :: ms)), rest)
         | none => none)
      | none => none

/-- After one member: either `}`, or `,` and further members. -/
def parseObjTail : Nat → List Char → Option (List (String × JsValue) × List Char)
  | 0, _ => none
  | fuel + 1, l =>
    match skipWsChars l with
    | '}' :: r => some ([], r)
    | ',' :: r =>
      (match parseMember fuel r with
       | some (m, r2) =>
         (match parseObjTail fuel r2 with
          | some (ms, rest) => some (m :: ms, rest)
          | none => none)
       | none => none)
    | _ => none

end

/-- `JSON.parse(s)`: `none` models a thrown `SyntaxError`.  The fuel
`2 * length + 8` dominates the recursion depth, which consumes at least
one input character per two fuel ticks. -/
def jsonParse (s : String) : Option JsValue :=
  match parseVal (2 * s.data.length + 8) s.data with
  | some (v, rest) => if skipWsChars rest = [] then some v else none
  | none => none

/-!
`stripCodeFences` (route.ts:210-215, identical in suggest/route.ts and
part_001): three successive regex replacements
`s.replace(/^```json\n?/i, "").replace(/^```\n?/i, "").replace(/\n?```\s*$/i, "")`.
-/

/-- Drop a single leading line feed, as the optional `\n?` of the
leading-fence patterns. -/
def dropOptNl : List Char → List Char
  | '\n' :: rest => rest
  | l => l

/-- The first replacement: remove a leading, case-insensitive
` ```json ` marker (seven characters) and an optional following
newline. -/
def stripLeadJson : List Char → List Char
  | c1 :: c2 :: c3 :: c4 :: c5 :: c6 :: c7 :: rest =>
    if [c1, c2, c3, c4, c5, c6, c7].map Char.toLower = "```json".data then dropOptNl rest
    else c1 :: c2 :: c3 :: c4 :: c5 :: c6 :: c7 :: rest
  | l => l

/-- The second replacement: remove a leading ` ``` ` marker and an
optional following newline. -/
def stripLeadTicks : List Char → List Char
  | c1 :: c2 :: c3 :: rest =>
    if [c1, c2, c3] = "```".data then dropOptNl rest
    else c1 :: c2 :: c3 :: rest
  | l => l

/-- The whitespace class `\s` of JS regexes (the characters that can
follow the closing fence). -/
def regexWsChar (c : Char) : Bool :=
  jsWsChar c || c = ' '

/-- Does `l` consist of ` ``` ` followed only by whitespace? -/
def ticksThenWs : List Char → Bool
  | c1 :: c2 :: c3 :: rest =>
    c1 == '\x60' && c2 == '\x60' && c3 == '\x60' && rest.all regexWsChar
  | _ => false

/-- Does the pattern `\n?```\s*$` match the whole of `l`?  The regex
first tries to consume the optional newline, then retries without it. -/
def trailFenceHere : List Char → Bool
  | [] => false
  | c :: rest => (if c = '\n' then ticksThenWs rest else false) || ticksThenWs (c :: rest)

/-- Index of the leftmost suffix matching the trailing-fence pattern
(the regex engine's leftmost-match rule). -/
def findTrailFence : List Char → Option Nat
  | [] => none
  | c :: rest =>
    if trailFenceHere (c :: rest) then some 0
    else (findTrailFence rest).map (· + 1)

/-- The third replacement: delete the leftmost suffix matching
`\n?```\s*$`, if any. -/
def stripTrailFence (l : List Char) : List Char :=
  match findTrailFence l with
  | some i => l.take i
  | none => l

/-- `stripCodeFences` (route.ts:210-215). -/
def stripCodeFences (s : String) : String :=
  ⟨stripTrailFence (stripLeadTicks (stripLeadJson s.data))⟩

/-!
The decode chain and response shaping shared by the tails of both POST
handlers.  `tryParseJson` returns the JS value `null` on a parse
error, which `??` cannot distinguish from a successfully parsed JSON
`null`.
-/

/-- `tryParseJson` (route.ts:217-223): `JSON.parse` with exceptions
converted to the JS value `null`. -/
def tryParseJson (s : String) : JsValue :=
  match jsonParse s with
  | some v => v
  | none => .null

/-- `tryParseJson(stripCodeFences(raw)) ?? tryParseJson(raw)`
(route.ts:226-227 and suggest/route.ts:172-173). -/
def parsedChain (rawText : String) : JsValue :=
  jsNullish (tryParseJson (stripCodeFences rawText)) (tryParseJson rawText)

/-- An HTTP response of the model: a JSON body with a status, or a
plain-text body with a status and content type.  (CORS headers carry no
claim content and are omitted.) -/
inductive HttpResponse where
  | json : Nat → JsValue → HttpResponse
  | text : Nat → String → String → HttpResponse

/-- Status code of a response. -/
def HttpResponse.status : HttpResponse → Nat
  | .json s _ => s
  | .text s _ _ => s

/-- Body of the public 502 "non-JSON output" response (route.ts:230-233). -/
def nonJsonBody (rawText : String) : JsValue :=
  .obj [("error", .str "Model returned non-JSON output"), ("raw", .str rawText)]

/-- Body of the public 502 "no titles" response (route.ts:238-241). -/
def noTitlesBody (parsed : JsValue) : JsValue :=
  .obj [("error", .str "No titles produced"), ("raw", parsed)]

/-- Body of the public 200 response (route.ts:244-254). -/
def successBody (titles : List String) : JsValue :=
  .obj [("titles", .arr (titles.map .str)),
        ("meta", .obj [("count", .num titles.length),
                       ("maxLength", .num 45),
                       ("model", .str "gemini-2.5-flash")])]

/-- The public route from the extracted text onward (route.ts:225-254):
decode chain, JS-truthiness test `if (!parsed)`, normalization, and
response shaping. -/
def publicFinish (rawText : String) : HttpResponse :=
  if !(parsedChain rawText).truthy then .json 502 (nonJsonBody rawText)
  else if (normalizeTitlesFromJson (parsedChain rawText)).isEmpty then
    .json 502 (noTitlesBody (parsedChain rawText))
  else .json 200 (successBody (normalizeTitlesFromJson (parsedChain rawText)))

/-- The suggest route from the extracted text onward
(suggest/route.ts:172-181): the test is `parsed !== null` (strict
null comparison, not truthiness), and a decode failure degrades to a
lenient plain-text 200. -/
def suggestFinish (rawText : String) : HttpResponse :=
  match parsedChain rawText with
  | .null => .text 200 "text/plain; charset=utf-8" rawText
  | parsed => .json 200 parsed

/-!
The text extractors.  Both are wrapped in `try { ... } catch { return
String(resp) }`; `Except Unit _` carries a thrown exception through the
body, `.error ()` being a throw.  A body can throw only at an unguarded
property access on `null`/`undefined` or when an invoked `text`
accessor rejects.  The extracted "text" is whatever value the body
returns — the `await` of a `text()` call and `JSON.stringify` can
produce non-strings (`JSON.stringify` of a function is `undefined`).
-/

/-- Invoking a `text` accessor that passed a `typeof === "function"`
guard: the call either throws or returns the function's value. -/
def callTextFn : JsValue → Except Unit JsValue
  | .fn true _ => .error ()
  | .fn false v => .ok v
  | _ => .error ()

/-- The last-resort tail shared verbatim by both extractors
(route.ts:203-204, suggest/route.ts:144-146): a string response is
returned as is, anything else is `JSON.stringify`ed — which yields the
JS value `undefined` for a function. -/
def extractLastResort (resp : JsValue) : Except Unit JsValue :=
  match resp with
  | .str s => .ok (.str s)
  | resp =>
    match jsonStringify resp with
    | some s => .ok (.str s)
    | none => .ok .undefinedVal

/-- One candidate part in the public extractor (route.ts:186):
`p && typeof p === "object" && typeof p["text"] === "string" ? String(p["text"]) : ""`. -/
def publicPartText (p : JsValue) : String :=
  if p.truthy && p.isObjLike then
    match getProp p "text" with
    | .str s => s
    | _ => ""
  else ""

/-- `parts.map(...).filter(Boolean).join("\n")` of the public extractor. -/
def joinPartsPublic (ps : List JsValue) : String :=
  String.intercalate "\n" ((ps.map publicPartText).filter (fun s => s != ""))

/-- Reading `first["text"]` (route.ts:191), an unguarded access that
throws when the first candidate is `null`/`undefined`; a string value
survives `String(...)` unchanged, anything else gives `""`. -/
def firstTextRead : JsValue → Except Unit String
  | .null => .error ()
  | .undefinedVal => .error ()
  | first =>
    match getProp first "text" with
    | .str s => .ok s
    | _ => .ok ""

/-- The final fallbacks of the public extractor (route.ts:194-204):
a top-level `content.parts` join, then the last resort. -/
def publicTailPath (r : JsValue) : Except Unit JsValue :=
  match optProp (if r.truthy && r.isObjLike then getProp r "content" else .undefinedVal) "parts" with
  | .arr ps =>
    if joinPartsPublic ps != "" then .ok (.str (joinPartsPublic ps))
    else extractLastResort r
  | _ => extractLastResort r

/-- The `textField` fallback inside the candidates branch
(route.ts:191-192): `content["text"]` when `content` is truthy and it
is a string, otherwise `first["text"]`; returned (untrimmed) when its
trim is nonempty, else control falls through to the tail path. -/
def publicTextFieldPath (r first content : JsValue) : Except Unit JsValue :=
  match (if content.truthy then
      match getProp content "text" with
      | .str s => Except.ok s
      | _ => firstTextRead first
    else firstTextRead first) with
  | .error () => .error ()
  | .ok tf => if jsTrim tf != "" then .ok (.str tf) else publicTailPath r

/-- The candidates branch of the public extractor (route.ts:180-193). -/
def publicCandidatesPath (r first : JsValue) : Except Unit JsValue :=
  match optProp (optProp first "content") "parts" with
  | .arr ps =>
    if joinPartsPublic ps != "" then .ok (.str (joinPartsPublic ps))
    else publicTextFieldPath r first (optProp first "content")
  | _ => publicTextFieldPath r first (optProp first "content")

/-- The `try` body of the public extractor (route.ts:169-204).  The
`typeof r["outputText"]` access at route.ts:177 is unguarded, so a
`null`/`undefined` response throws there. -/
def responseObjOf (r : JsValue) : JsValue :=
  if r.truthy && r.isObjLike then getProp r "response" else .undefinedVal

/-- `rr?.response?.candidates || rr?.candidates` (route.ts:178-179). -/
def candidatesOf (r : JsValue) : JsValue :=
  jsOr (optProp (optProp r "response") "candidates") (optProp r "candidates")

def publicExtractBody (r : JsValue) : Except Unit JsValue :=
  if r.truthy && r.isObjLike && (getProp r "text").isFn then
    callTextFn (getProp r "text")
  else if (responseObjOf r).truthy && (getProp (responseObjOf r) "text").isFn then
    callTextFn (getProp (responseObjOf r) "text")
  else
    match r with
    | .null => .error ()
    | .undefinedVal => .error ()
    | r =>
      match getProp r "outputText" with
      | .str s => .ok (.str s)
      | _ =>
        match candidatesOf r with
        | .arr (first :: _) => publicCandidatesPath r first
        | _ => publicTailPath r

/-- `extractText` of the public route (route.ts:168-208): the catch
converts any thrown exception to `String(resp)`. -/
def publicExtractText (resp : JsValue) : Except Unit JsValue :=
  match publicExtractBody resp with
  | .ok v => .ok v
  | .error () => .ok (.str (jsToString resp))

/-- One candidate part in the suggest extractor
(suggest/route.ts:133): `p?.text || ""` — no string `typeof` guard. -/
def suggestPartVal (p : JsValue) : JsValue :=
  jsOr (optProp p "text") (.str "")

/-- `parts.map(p => p?.text || "").filter(Boolean).join("\n")`: the
join stringifies non-string part values. -/
def suggestJoinParts (ps : List JsValue) : String :=
  String.intercalate "\n" (((ps.map suggestPartVal).filter JsValue.truthy).map jsToString)

/-- The tail fallbacks of the suggest extractor
(suggest/route.ts:139-146). -/
def suggestTail (resp : JsValue) : Except Unit JsValue :=
  match optProp (optProp resp "content") "parts" with
  | .arr ps =>
    if suggestJoinParts ps != "" then .ok (.str (suggestJoinParts ps))
    else extractLastResort resp
  | _ => extractLastResort resp

/-- The `textField` fallback of the suggest extractor
(suggest/route.ts:136-137): `candidates[0]?.content?.text || candidates[0]?.text`
with a `typeof === "string"` guard and a nonempty-trim test. -/
def suggestTextField (resp first : JsValue) : Except Unit JsValue :=
  match jsOr (optProp (optProp first "content") "text") (optProp first "text") with
  | .str s => if jsTrim s != "" then .ok (.str s) else suggestTail resp
  | _ => suggestTail resp

/-- The `try` body of the suggest extractor (suggest/route.ts:118-146);
every access is optional-chained, so it can throw only inside an
invoked `text` accessor. -/
def suggestExtractBody (resp : JsValue) : Except Unit JsValue :=
  if resp.truthy && (getProp resp "text").isFn then
    callTextFn (getProp resp "text")
  else if (optProp resp "response").truthy && (getProp (optProp resp "response") "text").isFn then
    callTextFn (getProp (optProp resp "response") "text")
  else
    match optProp resp "outputText" with
    | .str s => .ok (.str s)
    | _ =>
      match candidatesOf resp with
      | .arr (first :: _) =>
        (match optProp (optProp first "content") "parts" with
         | .arr ps =>
           if suggestJoinParts ps != "" then .ok (.str (suggestJoinParts ps))
           else suggestTextField resp first
         | _ => suggestTextField resp first)
      | _ => suggestTail resp

/-- `extractText` of the suggest route (suggest/route.ts:117-150). -/
def suggestExtractText (resp : JsValue) : Except Unit JsValue :=
  match suggestExtractBody resp with
  | .ok v => .ok v
  | .error () => .ok (.str (jsToString resp))

/-!
The full POST handlers.  The generation service is an oracle
`gen : String → GenOutcome` mapping the built user prompt to either a
thrown exception or an opaque response value; `modelCalled` records
whether `generateContent` was reached.  Error messages produced by JS
`TypeError`s on non-string values are engine-dependent and modelled by
named constants.
-/

/-- Outcome of the `generateContent` call: a thrown error (carrying its
`message`) or a response value. -/
inductive GenOutcome where
  | throws : String → GenOutcome
  | returns : JsValue → GenOutcome

/-- A handler run: the HTTP response and whether the generation service
was invoked. -/
structure PostOutcome where
  response : HttpResponse
  modelCalled : Bool

/-- `if (!apiKey)`: the credential is `undefined` (absent) or the empty
string. -/
def keyMissing : Option String → Bool
  | none => true
  | some k => k == ""

/-- The dedicated missing-credential body (route.ts:124-127,
suggest/route.ts:71-74). -/
def missingKeyBody : JsValue :=
  .obj [("error", .str "Missing GEMINI_API_KEY environment variable")]

/-- A `{error: msg}` body. -/
def errBody (msg : String) : JsValue :=
  .obj [("error", .str msg)]

/-- The four request fields extracted by the public route
(route.ts:115-120): type-checked, with non-string keywords dropped. -/
structure PromptInput where
  description : Option String
  keywords : Option (List String)
  niche : Option String
  language : Option String

/-- A string-typed field, or absent. -/
def asStringOpt : JsValue → Option String
  | .str s => some s
  | _ => none

/-- Request-body field extraction of the public route (route.ts:115-120):
a body-parse failure became `{}`, a non-object body is replaced by `{}`,
`keywords` keeps only the string elements of an array value. -/
def publicFields (bodyParse : Option JsValue) : PromptInput :=
  let body := match bodyParse with
    | some v => v
    | none => .obj []
  let raw := if body.truthy && body.isObjLike then body else .obj []
  { description := asStringOpt (getProp raw "description")
    keywords :=
      match getProp raw "keywords" with
      | .arr ks => some (ks.filterMap asStringOpt)
      | _ => none
    niche := asStringOpt (getProp raw "niche")
    language := asStringOpt (getProp raw "language") }

/-- `buildUserPrompt` of the public route (route.ts:62-76): only truthy
fields contribute a line (an empty description string or empty keyword
list is omitted), followed by the two fixed reminder lines. -/
def buildUserPrompt (input : PromptInput) : String :=
  let l1 := match input.description with
    | some d => if d != "" then ["Description: " ++ d] else []
    | none => []
  let l2 := match input.keywords with
    | some ks => if ks.length != 0 then ["Keywords: " ++ String.intercalate ", " ks] else []
    | none => []
  let l3 := match input.niche with
    | some n => if n != "" then ["Niche: " ++ n] else []
    | none => []
  let l4 := match input.language with
    | some lg => if lg != "" then ["Language: " ++ lg] else []
    | none => []
  String.intercalate "\n" (l1 ++ l2 ++ l3 ++ l4 ++
    ["Respond in JSON only, no extra text.",
     "All titles must be <= 45 characters each."])

/-- `keywords.join(", ")` on an untyped value (suggest/route.ts:56):
only arrays have `join`; on anything else the call throws. -/
def jsJoinCommaSpace : JsValue → Except Unit String
  | .arr xs => .ok (String.intercalate ", " (xs.map jsArrElem))
  | _ => .error ()

/-- `buildUserPrompt` as invoked by the suggest route
(suggest/route.ts:48-62) on the raw destructured fields: truthiness
decides inclusion, string interpolation coerces the values, and the
`keywords` line can throw (`?.length` truthy on a non-array). -/
def suggestBuildPrompt (d kw n lg : JsValue) : Except Unit String :=
  let l1 := if d.truthy then ["Description: " ++ jsToString d] else []
  let kwLine : Except Unit (List String) :=
    if (optProp kw "length").truthy then
      match jsJoinCommaSpace kw with
      | .ok s => .ok ["Keywords: " ++ s]
      | .error () => .error ()
    else .ok []
  match kwLine with
  | .error () => .error ()
  | .ok l2 =>
    let l3 := if n.truthy then ["Niche: " ++ jsToString n] else []
    let l4 := if lg.truthy then ["Language: " ++ jsToString lg] else []
    .ok (String.intercalate "\n" (l1 ++ l2 ++ l3 ++ l4 ++
      ["Respond in JSON only, no extra text.",
       "All titles must be <= 45 characters each."]))

/-- Engine-dependent `TypeError` message for calling `.replace` on the
non-string extraction result in the public route. -/
def publicReplaceErrorMessage : String :=
  "rawText.replace is not a function"

/-- Engine-dependent `TypeError` message for the same situation in the
suggest route. -/
def suggestReplaceErrorMessage : String :=
  "text.replace is not a function"

/-- Engine-dependent `TypeError` message for `keywords.join` on a
non-array. -/
def suggestJoinErrorMessage : String :=
  "keywords.join is not a function"

/-- The public POST handler (route.ts:113-262): body-parse (failures
become `{}`), field extraction, credential check, generation call,
extraction, and the decode/normalize tail.  The outer catch turns a
thrown generation error into a 500 with its message, and a non-string
extraction result throws at `stripCodeFences` (also a 500). -/
def publicPOST (bodyParse : Option JsValue) (envKey : Option String)
    (gen : String → GenOutcome) : PostOutcome :=
  if keyMissing envKey then
    { response := .json 500 missingKeyBody, modelCalled := false }
  else
    match gen (buildUserPrompt (publicFields bodyParse)) with
    | .throws msg => { response := .json 500 (errBody msg), modelCalled := true }
    | .returns resp =>
      match publicExtractText resp with
      | .ok (.str rawText) =>
        { response := publicFinish rawText, modelCalled := true }
      | _ =>
        { response := .json 500 (errBody publicReplaceErrorMessage), modelCalled := true }

/-- `body || {}` of the suggest route (suggest/route.ts:66-67): the
parsed body (`{}` on a parse failure), replaced by `{}` when falsy. -/
def suggestBody (bodyParse : Option JsValue) : JsValue :=
  jsOr (match bodyParse with
    | some v => v
    | none => .obj []) (.obj [])

/-- The suggest POST handler (suggest/route.ts:64-185): the body is
destructured untyped (`body || {}`), the prompt is built inside the
generation call's arguments (so a prompt-building throw happens before
the call), and the catch uses `err?.message || "Unexpected error"`. -/
def suggestPOST (bodyParse : Option JsValue) (envKey : Option String)
    (gen : String → GenOutcome) : PostOutcome :=
  if keyMissing envKey then
    { response := .json 500 missingKeyBody, modelCalled := false }
  else
    match suggestBuildPrompt
        (getProp (suggestBody bodyParse) "description")
        (getProp (suggestBody bodyParse) "keywords")
        (getProp (suggestBody bodyParse) "niche")
        (getProp (suggestBody bodyParse) "language") with
    | .error () =>
      { response := .json 500 (errBody suggestJoinErrorMessage), modelCalled := false }
    | .ok prompt =>
      match gen prompt with
      | .throws msg =>
        { response := .json 500 (errBody (if msg == "" then "Unexpected error" else msg)),
          modelCalled := true }
      | .returns resp =>
        match suggestExtractText resp with
        | .ok (.str rawText) =>
          { response := suggestFinish rawText, modelCalled := true }
        | _ =>
          { response := .json 500 (errBody suggestReplaceErrorMessage), modelCalled := true }

/-!
Helper lemmas about trimming, truncation and deduplication.
-/

theorem dropWhile_head_not (p : Char → Bool) (l : List Char) :
    l.dropWhile p = [] ∨ ∃ c t, l.dropWhile p = c :: t ∧ p c = false := by
  induction l with
  | nil => exact Or.inl rfl
  | cons c t ih =>
    by_cases h : p c
    · simpa [List.dropWhile_cons, h] using ih
    · exact Or.inr ⟨c, t, by simp [List.dropWhile_cons, h], by simpa using h⟩

theorem dropWhile_dropWhile (p : Char → Bool) (l : List Char) :
    (l.dropWhile p).dropWhile p = l.dropWhile p := by
  rcases dropWhile_head_not p l with h | ⟨c, t, h, hc⟩
  · simp [h]
  · simp [h, List.dropWhile_cons, hc]

theorem dropWhile_append_last (p : Char → Bool) (c : Char) (hc : p c = false) (xs : List Char) :
    ∃ zs, (xs ++ [c]).dropWhile p = zs ++ [c] := by
  induction xs with
  | nil => exact ⟨[], by simp [List.dropWhile_cons, hc]⟩
  | cons x t ih =>
    by_cases h : p x
    · simpa [List.dropWhile_cons, h] using ih
    · exact ⟨x :: t, by simp [List.dropWhile_cons, h]⟩

theorem trimChars_cons_head (c : Char) (t : List Char) (hc : jsWsChar c = false) :
    ∃ u, trimChars (c :: t) = c :: u := by
  unfold trimChars
  rw [List.dropWhile_cons, if_neg (by simp [hc])]
  rcases dropWhile_append_last jsWsChar c hc t.reverse with ⟨zs, hz⟩
  refine ⟨zs.reverse, ?_⟩
  rw [show (c :: t).reverse = t.reverse ++ [c] by simp, hz]
  simp

theorem trimChars_length_le (l : List Char) : (trimChars l).length ≤ l.length := by
  unfold trimChars
  calc ((l.dropWhile jsWsChar).reverse.dropWhile jsWsChar).reverse.length
      = ((l.dropWhile jsWsChar).reverse.dropWhile jsWsChar).length := by simp
    _ ≤ (l.dropWhile jsWsChar).reverse.length := (List.dropWhile_sublist _).length_le
    _ = (l.dropWhile jsWsChar).length := by simp
    _ ≤ l.length := (List.dropWhile_sublist _).length_le

theorem trimChars_idem (l : List Char) : trimChars (trimChars l) = trimChars l := by
  rcases dropWhile_head_not jsWsChar l with h | ⟨c, t, h, hc⟩
  · unfold trimChars
    rw [h]
    simp
  · have h1 : trimChars l = (List.dropWhile jsWsChar (c :: t).reverse).reverse := by
      unfold trimChars
      rw [h]
    rcases dropWhile_append_last jsWsChar c hc t.reverse with ⟨zs, hz⟩
    have h2 : trimChars l = c :: zs.reverse := by
      rw [h1, show (c :: t).reverse = t.reverse ++ [c] by simp, hz]
      simp
    rw [h2]
    rcases trimChars_cons_head c zs.reverse hc with ⟨u, hu⟩
    -- `trimChars (c :: zs.reverse)` keeps the head; we must show it is
    -- the whole list.  The front `dropWhile` is the identity, and the
    -- back one drops nothing because the back was already trimmed.
    have hback : (c :: zs.reverse).reverse.dropWhile jsWsChar = (c :: zs.reverse).reverse := by
      have : (c :: zs.reverse).reverse = (zs ++ [c]).reverse.reverse := by simp
      rw [this, List.reverse_reverse, ← hz]
      exact dropWhile_dropWhile _ _
    unfold trimChars
    rw [List.dropWhile_cons, if_neg (by simp [hc]), hback]
    simp

theorem jsTrim_data (s : String) : (jsTrim s).data = trimChars s.data := rfl

theorem jsTrim_eq_iff (s : String) : jsTrim s = s ↔ trimChars s.data = s.data := by
  constructor
  · intro h
    have := congrArg String.data h
    simpa [jsTrim_data] using this
  · intro h
    cases s with
    | mk l => exact congrArg String.mk h

theorem jsTrim_idem (s : String) : jsTrim (jsTrim s) = jsTrim s := by
  rw [jsTrim_eq_iff, jsTrim_data]
  exact trimChars_idem s.data

theorem jsTrim_empty : jsTrim "" = "" := rfl

theorem trimChars_fixed_head (c : Char) (t : List Char) (h : trimChars (c :: t) = c :: t) :
    jsWsChar c = false := by
  by_contra hc
  simp only [Bool.not_eq_false] at hc
  have h1 : trimChars (c :: t) = ((t.dropWhile jsWsChar).reverse.dropWhile jsWsChar).reverse := by
    unfold trimChars
    rw [List.dropWhile_cons, if_pos (by simp [hc])]
  have hlen : (trimChars (c :: t)).length ≤ t.length := by
    rw [h1]
    calc ((t.dropWhile jsWsChar).reverse.dropWhile jsWsChar).reverse.length
        = ((t.dropWhile jsWsChar).reverse.dropWhile jsWsChar).length := by simp
      _ ≤ (t.dropWhile jsWsChar).reverse.length := (List.dropWhile_sublist _).length_le
      _ = (t.dropWhile jsWsChar).length := by simp
      _ ≤ t.length := (List.dropWhile_sublist _).length_le
  rw [h] at hlen
  simp at hlen

theorem string_ne_empty_iff (s : String) : s ≠ "" ↔ s.data ≠ [] := by
  cases s with
  | mk l =>
    constructor
    · intro h hl
      exact h (congrArg String.mk hl)
    · intro h hs
      exact h (congrArg String.data hs)

theorem truncate45_trimmed (s : String) (hfix : jsTrim s = s) :
    jsTrim (truncate45 s) = truncate45 s := by
  unfold truncate45
  split
  · exact jsTrim_idem _
  · exact hfix

theorem truncate45_ne_empty (s : String) (hfix : jsTrim s = s) (hne : s ≠ "") :
    truncate45 s ≠ "" := by
  have hdata : trimChars s.data = s.data := (jsTrim_eq_iff s).1 hfix
  have hnil : s.data ≠ [] := (string_ne_empty_iff s).1 hne
  unfold truncate45
  split
  · rcases hd : s.data with _ | ⟨c, t⟩
    · exact absurd hd hnil
    · have hcw : jsWsChar c = false := trimChars_fixed_head c t (by rw [← hd]; exact hdata)
      rw [string_ne_empty_iff, jsTrim_data]
      show trimChars (List.take 45 (c :: t)) ≠ []
      rw [show (45 : Nat) = 44 + 1 from rfl, List.take_succ_cons]
      rcases trimChars_cons_head c (t.take 44) hcw with ⟨u, hu⟩
      rw [hu]
      simp
  · exact hne

theorem truncate45_length_le (s : String) (hlen : s.data.length ≤ 45 ∨ jsTrim s = s) :
    (truncate45 s).data.length ≤ 45 := by
  unfold truncate45
  split
  · rw [jsTrim_data]
    calc (trimChars (s.data.take 45)).length ≤ (s.data.take 45).length :=
          trimChars_length_le _
      _ ≤ 45 := by simp
  · rcases hlen with h | _
    · exact h
    · omega

theorem truncate45_eq_self (s : String) (hlen : s.data.length ≤ 45) : truncate45 s = s := by
  unfold truncate45
  rw [if_neg (by omega)]

theorem mem_postProcess {x : String} {l : List String} (h : x ∈ postProcess l) :
    jsTrim x = x ∧ x ≠ "" ∧ x.data.length ≤ 45 := by
  unfold postProcess at h
  rcases List.mem_map.1 h with ⟨y, hy, rfl⟩
  rcases List.mem_filter.1 hy with ⟨hy1, hy2⟩
  rcases List.mem_map.1 hy1 with ⟨t, _, rfl⟩
  have hfix : jsTrim (jsTrim t) = jsTrim t := jsTrim_idem t
  have hne : jsTrim t ≠ "" := by simpa using hy2
  exact ⟨truncate45_trimmed _ hfix, truncate45_ne_empty _ hfix hne,
    truncate45_length_le _ (Or.inr hfix)⟩

theorem postProcess_eq_self {l : List String}
    (h : ∀ x ∈ l, jsTrim x = x ∧ x ≠ "" ∧ x.data.length ≤ 45) : postProcess l = l := by
  unfold postProcess
  have h1 : l.map jsTrim = l := by
    rw [List.map_congr_left (fun x hx => (h x hx).1)]
    exact List.map_id l
  rw [h1]
  have h2 : l.filter (fun t => t != "") = l :=
    List.filter_eq_self.2 (fun x hx => by simpa using (h x hx).2.1)
  rw [h2]
  rw [List.map_congr_left (fun x hx => truncate45_eq_self x (h x hx).2.2)]
  exact List.map_id l

theorem filter_map_filter_trim (l : List String) :
    ((l.filter (fun t => t != "")).map jsTrim).filter (fun t => t != "")
      = (l.map jsTrim).filter (fun t => t != "") := by
  induction l with
  | nil => rfl
  | cons a l ih =>
    by_cases ha : a = ""
    · subst ha
      simp only [List.filter_cons, List.map_cons]
      rw [show (("" : String) != "") = false from rfl]
      simp only [Bool.false_eq_true, if_false]
      rw [show jsTrim "" = "" from rfl]
      rw [show (("" : String) != "") = false from rfl]
      simp only [Bool.false_eq_true, if_false]
      exact ih
    · simp only [List.filter_cons, List.map_cons]
      rw [show ((a : String) != "") = true by simpa using ha]
      simp only [if_true, List.map_cons, List.filter_cons]
      rw [ih]

theorem postProcess_filter_ne (l : List String) :
    postProcess (l.filter (fun t => t != "")) = postProcess l := by
  unfold postProcess
  rw [filter_map_filter_trim]

theorem mem_dedupFirstAux (a : String) (l : List String) :
    ∀ seen, a ∈ dedupFirstAux seen l ↔ (a ∈ l ∧ a ∉ seen) := by
  induction l with
  | nil => intro seen; simp [dedupFirstAux]
  | cons x xs ih =>
    intro seen
    unfold dedupFirstAux
    by_cases hx : x ∈ seen
    · rw [if_pos hx, ih seen]
      constructor
      · rintro ⟨h1, h2⟩
        exact ⟨List.mem_cons_of_mem x h1, h2⟩
      · rintro ⟨h1, h2⟩
        rcases List.mem_cons.1 h1 with rfl | h1
        · exact (h2 hx).elim
        · exact ⟨h1, h2⟩
    · rw [if_neg hx]
      constructor
      · intro h
        rcases List.mem_cons.1 h with rfl | h
        · exact ⟨List.mem_cons_self _ _, hx⟩
        · rcases (ih _).1 h with ⟨h1, h2⟩
          simp only [List.mem_cons, not_or] at h2
          exact ⟨List.mem_cons_of_mem x h1, h2.2⟩
      · rintro ⟨h1, h2⟩
        rcases List.mem_cons.1 h1 with rfl | h1
        · exact List.mem_cons_self _ _
        · by_cases hax : a = x
          · subst hax
            exact List.mem_cons_self _ _
          · refine List.mem_cons_of_mem x ((ih _).2 ⟨h1, ?_⟩)
            simp only [List.mem_cons, not_or]
            exact ⟨hax, h2⟩

theorem nodup_dedupFirstAux (l : List String) : ∀ seen, (dedupFirstAux seen l).Nodup := by
  induction l with
  | nil => intro _; simp [dedupFirstAux]
  | cons x xs ih =>
    intro seen
    unfold dedupFirstAux
    by_cases hx : x ∈ seen
    · rw [if_pos hx]
      exact ih seen
    · rw [if_neg hx]
      refine List.nodup_cons.2 ⟨?_, ih _⟩
      intro hmem
      rcases (mem_dedupFirstAux _ _ _).1 hmem with ⟨_, h2⟩
      exact h2 (List.mem_cons_self _ _)

theorem sublist_dedupFirstAux (l : List String) : ∀ seen, (dedupFirstAux seen l).Sublist l := by
  induction l with
  | nil => intro _; simp [dedupFirstAux]
  | cons x xs ih =>
    intro seen
    unfold dedupFirstAux
    by_cases hx : x ∈ seen
    · rw [if_pos hx]
      exact (ih seen).cons x
    · rw [if_neg hx]
      exact (ih _).cons₂ x

theorem pairwise_indexOf_dedupFirstAux (l : List String) :
    ∀ seen, (dedupFirstAux seen l).Pairwise (fun a b => l.indexOf a < l.indexOf b) := by
  induction l with
  | nil => intro _; simp [dedupFirstAux]
  | cons x xs ih =>
    intro seen
    unfold dedupFirstAux
    by_cases hx : x ∈ seen
    · rw [if_pos hx]
      refine (ih seen).imp_of_mem ?_
      intro a b ha hb hab
      rcases (mem_dedupFirstAux _ _ _).1 ha with ⟨_, ha2⟩
      rcases (mem_dedupFirstAux _ _ _).1 hb with ⟨_, hb2⟩
      have hax : x ≠ a := fun h => ha2 (h ▸ hx)
      have hbx : x ≠ b := fun h => hb2 (h ▸ hx)
      rw [List.indexOf_cons_ne _ hax, List.indexOf_cons_ne _ hbx]
      exact Nat.succ_lt_succ hab
    · rw [if_neg hx]
      refine List.pairwise_cons.2 ⟨?_, ?_⟩
      · intro b hb
        rcases (mem_dedupFirstAux _ _ _).1 hb with ⟨_, hb2⟩
        have hbx : x ≠ b := fun h => hb2 (h ▸ List.mem_cons_self x seen)
        rw [List.indexOf_cons_self, List.indexOf_cons_ne _ hbx]
        exact Nat.succ_pos _
      · refine (ih _).imp_of_mem ?_
        intro a b ha hb hab
        rcases (mem_dedupFirstAux _ _ _).1 ha with ⟨_, ha2⟩
        rcases (mem_dedupFirstAux _ _ _).1 hb with ⟨_, hb2⟩
        have hax : x ≠ a := fun h => ha2 (h ▸ List.mem_cons_self x seen)
        have hbx : x ≠ b := fun h => hb2 (h ▸ List.mem_cons_self x seen)
        rw [List.indexOf_cons_ne _ hax, List.indexOf_cons_ne _ hbx]
        exact Nat.succ_lt_succ hab

theorem dedupFirstAux_eq_self (l : List String) :
    ∀ seen, l.Nodup → (∀ a ∈ l, a ∉ seen) → dedupFirstAux seen l = l := by
  induction l with
  | nil => intro _ _ _; rfl
  | cons x xs ih =>
    intro seen hnd hs
    unfold dedupFirstAux
    rw [if_neg (hs x (List.mem_cons_self _ _))]
    congr 1
    refine ih _ (List.nodup_cons.1 hnd).2 ?_
    intro a ha
    simp only [List.mem_cons, not_or]
    exact ⟨fun h => (List.nodup_cons.1 hnd).1 (h ▸ ha), hs a (List.mem_cons_of_mem _ ha)⟩

theorem mem_dedupFirst (a : String) (l : List String) : a ∈ dedupFirst l ↔ a ∈ l := by
  unfold dedupFirst
  rw [mem_dedupFirstAux]
  simp

theorem nodup_dedupFirst (l : List String) : (dedupFirst l).Nodup :=
  nodup_dedupFirstAux l []

theorem sublist_dedupFirst (l : List String) : (dedupFirst l).Sublist l :=
  sublist_dedupFirstAux l []

theorem pairwise_indexOf_dedupFirst (l : List String) :
    (dedupFirst l).Pairwise (fun a b => l.indexOf a < l.indexOf b) :=
  pairwise_indexOf_dedupFirstAux l []

theorem dedupFirst_eq_self (l : List String) (hnd : l.Nodup) : dedupFirst l = l :=
  dedupFirstAux_eq_self l [] hnd (by simp)

theorem mem_normalizeTitles {x : String} {j : JsValue} (h : x ∈ normalizeTitlesFromJson j) :
    jsTrim x = x ∧ x ≠ "" ∧ x.data.length ≤ 45 := by
  unfold normalizeTitlesFromJson at h
  exact mem_postProcess ((mem_dedupFirst _ _).1 h)

theorem nodup_normalizeTitles (j : JsValue) : (normalizeTitlesFromJson j).Nodup :=
  nodup_dedupFirst _

theorem postProcess_of_trimmed {l : List String}
    (h : ∀ x ∈ l, jsTrim x = x ∧ x ≠ "") : postProcess l = l.map truncate45 := by
  unfold postProcess
  have h1 : l.map jsTrim = l := by
    rw [List.map_congr_left (fun x hx => (h x hx).1)]
    exact List.map_id l
  rw [h1, List.filter_eq_self.2 (fun x hx => by simpa using (h x hx).2)]

/-- C3: for every input JSON value, every title produced by the public
normalizer is a non-empty string with no leading or trailing whitespace
(trimming is the identity on it) of length at most 45; the output has
no duplicates at distinct positions (`Nodup`); and the elements appear
in first-occurrence order of the processed source sequence: the output
is a sublist of it, and successive output elements have strictly
increasing first-occurrence indices in it. -/
theorem normalizeTitles_invariants (j : JsValue) :
    (∀ t ∈ normalizeTitlesFromJson j,
        t ≠ "" ∧ jsTrim t = t ∧ t.data.length ≤ 45) ∧
    (normalizeTitlesFromJson j).Nodup ∧
    (normalizeTitlesFromJson j).Sublist (postProcess (rawTitles j)) ∧
    (normalizeTitlesFromJson j).Pairwise
      (fun a b => (postProcess (rawTitles j)).indexOf a
        < (postProcess (rawTitles j)).indexOf b) := by
  refine ⟨?_, nodup_normalizeTitles j, sublist_dedupFirst _, pairwise_indexOf_dedupFirst _⟩
  intro t ht
  rcases mem_normalizeTitles ht with ⟨h1, h2, h3⟩
  exact ⟨h2, h1, h3⟩

/-- Witness for C3 at the concrete payload `{"titles": "A, B"}` and the
output element `"A"`. -/
theorem normalizeTitles_invariants_witness :
    ("A" ∈ normalizeTitlesFromJson (JsValue.obj [("titles", JsValue.str "A, B")])) ∧
    ("A" ≠ "" ∧ jsTrim "A" = "A" ∧ "A".data.length ≤ 45) :=
  ⟨by decide,
    (normalizeTitles_invariants (JsValue.obj [("titles", JsValue.str "A, B")])).1 "A" (by decide)⟩

/-- C4: normalization is idempotent — running the public normalizer on
the payload `{"titles": L}`, where `L` is any normalizer output,
returns exactly `L`. -/
theorem normalizeTitles_idempotent (j : JsValue) :
    normalizeTitlesFromJson (.obj [("titles", .arr ((normalizeTitlesFromJson j).map .str))])
      = normalizeTitlesFromJson j := by
  have hprops : ∀ x ∈ normalizeTitlesFromJson j, jsTrim x = x ∧ x ≠ "" ∧ x.data.length ≤ 45 :=
    fun x hx => mem_normalizeTitles hx
  show dedupFirst (postProcess
      (rawTitles (.obj [("titles", .arr ((normalizeTitlesFromJson j).map .str))]))) = _
  have hraw : rawTitles (.obj [("titles", .arr ((normalizeTitlesFromJson j).map .str))])
      = normalizeTitlesFromJson j := by
    show ((((normalizeTitlesFromJson j).map JsValue.str).map elemToTitle).filter
        (fun t => t != "")) = _
    rw [List.map_map]
    have h1 : (normalizeTitlesFromJson j).map (elemToTitle ∘ JsValue.str)
        = normalizeTitlesFromJson j := by
      rw [List.map_congr_left (fun x hx =>
        show (elemToTitle ∘ JsValue.str) x = x from (hprops x hx).1)]
      exact List.map_id _
    rw [h1]
    exact List.filter_eq_self.2 (fun x hx => by simpa using (hprops x hx).2.1)
  rw [hraw, postProcess_eq_self hprops]
  exact dedupFirst_eq_self _ (nodup_normalizeTitles j)

/-- C6: when the `titles` field is a string, the public normalizer
splits it on commas, trims each segment and discards empty segments
(then truncates and deduplicates as always); in particular
`{"titles": "A, B, B, C"}` normalizes to exactly `["A","B","C"]`. -/
theorem normalizeTitles_string_split :
    (∀ s : String,
        normalizeTitlesFromJson (.obj [("titles", .str s)])
          = dedupFirst ((((jsSplitComma s).map jsTrim).filter
              (fun t => t != "")).map truncate45)) ∧
    normalizeTitlesFromJson (.obj [("titles", .str "A, B, B, C")]) = ["A", "B", "C"] := by
  constructor
  · intro s
    show dedupFirst (postProcess
        (((jsSplitComma s).map jsTrim).filter (fun t => t != ""))) = _
    congr 1
    apply postProcess_of_trimmed
    intro x hx
    rcases List.mem_filter.1 hx with ⟨hx1, hx2⟩
    rcases List.mem_map.1 hx1 with ⟨t, _, rfl⟩
    exact ⟨jsTrim_idem t, by simpa using hx2⟩
  · rfl

/-- C1 counterexample: the raw text `"0"` decodes successfully under
strict JSON parsing (to the number 0), yet the public endpoint responds
502 "Model returned non-JSON output", because the route tests JS
truthiness of the decoded value (`if (!parsed)`), not decode success. -/
theorem publicFinish_falsy_counterexample :
    jsonParse (stripCodeFences "0") = some (.num 0) ∧
    jsonParse "0" = some (.num 0) ∧
    publicFinish "0" = .json 502 (nonJsonBody "0") :=
  ⟨rfl, rfl, rfl⟩

/-- C1 (amended): the public endpoint responds 502 with
`{error: "Model returned non-JSON output", raw: rawText}` if and only
if the decode chain produces a JS-falsy payload — both strict decodes
fail, or the selected decoded payload is `null`, `false`, `0` or `""`;
whenever the chain yields a truthy payload, that payload proceeds to
normalization. -/
theorem publicFinish_nonJson_iff (rawText : String) :
    publicFinish rawText = .json 502 (nonJsonBody rawText)
      ↔ (parsedChain rawText).truthy = false := by
  unfold publicFinish
  rcases h : (parsedChain rawText).truthy with _ | _
  · simp
  · simp only [h, Bool.not_true, Bool.false_eq_true, if_false]
    constructor
    · intro heq
      exfalso
      split at heq
      · simp only [HttpResponse.json.injEq, noTitlesBody, nonJsonBody,
          JsValue.obj.injEq, List.cons.injEq, Prod.mk.injEq, JsValue.str.injEq,
          true_and] at heq
        exact absurd heq.1 (by decide)
      · simp only [HttpResponse.json.injEq] at heq
        exact absurd heq.1 (by decide)
    · intro hcontra
      exact absurd hcontra (by decide)

/-- C9: on the internal endpoint, whenever strict JSON decoding fails
for both the fence-stripped and the unstripped extracted text, the
response is status 200 with the raw text as a `text/plain` body — the
decode failure is not reported as an error. -/
theorem suggestFinish_decode_failure (rawText : String)
    (h1 : jsonParse (stripCodeFences rawText) = none)
    (h2 : jsonParse rawText = none) :
    suggestFinish rawText = .text 200 "text/plain; charset=utf-8" rawText := by
  unfold suggestFinish parsedChain tryParseJson
  rw [h1, h2]
  rfl

/-- Witness for C9 at the concrete raw text `"plain prose"`. -/
theorem suggestFinish_decode_failure_witness :
    jsonParse (stripCodeFences "plain prose") = none ∧
    jsonParse "plain prose" = none ∧
    suggestFinish "plain prose" = .text 200 "text/plain; charset=utf-8" "plain prose" :=
  ⟨rfl, rfl, suggestFinish_decode_failure "plain prose" rfl rfl⟩

/-- C8: when the `GEMINI_API_KEY` credential is absent, both endpoints
return status 500 with the dedicated error body
`{error: "Missing GEMINI_API_KEY environment variable"}`, and the
generation service is not invoked (`modelCalled = false`), whatever the
request body and however the service would have behaved. -/
theorem missing_credential_500 (bodyParse : Option JsValue) (gen : String → GenOutcome) :
    publicPOST bodyParse none gen
      = ⟨.json 500 missingKeyBody, false⟩ ∧
    suggestPOST bodyParse none gen
      = ⟨.json 500 missingKeyBody, false⟩ ∧
    missingKeyBody
      = .obj [("error", .str "Missing GEMINI_API_KEY environment variable")] :=
  ⟨rfl, rfl, rfl⟩

theorem stripLeadJson_cons (c1 c2 c3 c4 c5 c6 c7 : Char) (rest : List Char) :
    stripLeadJson (c1 :: c2 :: c3 :: c4 :: c5 :: c6 :: c7 :: rest)
      = if [c1, c2, c3, c4, c5, c6, c7].map Char.toLower = "```json".data then dropOptNl rest
        else c1 :: c2 :: c3 :: c4 :: c5 :: c6 :: c7 :: rest := rfl

theorem stripLeadTicks_cons (c1 c2 c3 : Char) (rest : List Char) :
    stripLeadTicks (c1 :: c2 :: c3 :: rest)
      = if [c1, c2, c3] = "```".data then dropOptNl rest
        else c1 :: c2 :: c3 :: rest := rfl

theorem stripLeadJson_fence (rest : List Char) :
    stripLeadJson ('\x60' :: '\x60' :: '\x60' :: 'j' :: 's' :: 'o' :: 'n' :: '\n' :: rest)
      = rest := by
  rw [stripLeadJson_cons, if_pos (by decide)]
  rfl

theorem stripLeadTicks_no_tick (l : List Char) (h : ∀ c ∈ l, c ≠ '\x60') :
    stripLeadTicks (l ++ '\n' :: '\x60' :: '\x60' :: '\x60' :: [])
      = l ++ '\n' :: '\x60' :: '\x60' :: '\x60' :: [] := by
  rcases l with _ | ⟨c1, _ | ⟨c2, l2⟩⟩
  · rfl
  · show stripLeadTicks (c1 :: '\n' :: '\x60' :: '\x60' :: '\x60' :: []) = _
    rw [stripLeadTicks_cons, if_neg ?_]
    · rfl
    · intro heq
      injection heq with h1 h2
      injection h2 with h3 _
      exact (by decide : ('\n' : Char) ≠ '\x60') h3
  · rcases l2 with _ | ⟨c3, l3⟩
    · show stripLeadTicks (c1 :: c2 :: '\n' :: '\x60' :: '\x60' :: '\x60' :: []) = _
      rw [stripLeadTicks_cons, if_neg ?_]
      · rfl
      · intro heq
        injection heq with h1 _
        exact h c1 (List.mem_cons_self _ _) h1
    · show stripLeadTicks (c1 :: c2 :: c3 :: (l3 ++ '\n' :: '\x60' :: '\x60' :: '\x60' :: [])) = _
      rw [stripLeadTicks_cons, if_neg ?_]
      · rfl
      · intro heq
        injection heq with h1 _
        exact h c1 (List.mem_cons_self _ _) h1

theorem ticksThenWs_head_ne (c : Char) (t : List Char) (hc : c ≠ '\x60') :
    ticksThenWs (c :: t) = false := by
  rcases t with _ | ⟨c2, _ | ⟨c3, r⟩⟩
  · rfl
  · rfl
  · show (c == '\x60' && c2 == '\x60' && c3 == '\x60' && r.all regexWsChar) = false
    rw [show (c == '\x60') = false by simpa using hc]
    rfl

theorem ticksThenWs_append_close (l : List Char) (h : ∀ c ∈ l, c ≠ '\x60') :
    ticksThenWs (l ++ '\n' :: '\x60' :: '\x60' :: '\x60' :: []) = false := by
  rcases l with _ | ⟨c, l'⟩
  · rfl
  · exact ticksThenWs_head_ne c _ (h c (List.mem_cons_self _ _))

theorem trailFenceHere_append_close (c : Char) (l : List Char)
    (hc : c ≠ '\x60') (hl : ∀ x ∈ l, x ≠ '\x60') :
    trailFenceHere (c :: (l ++ '\n' :: '\x60' :: '\x60' :: '\x60' :: [])) = false := by
  show ((if c = '\n' then ticksThenWs (l ++ _) else false)
      || ticksThenWs (c :: (l ++ _))) = false
  rw [ticksThenWs_head_ne c _ hc, Bool.or_false]
  by_cases hcn : c = '\n'
  · rw [if_pos hcn]
    exact ticksThenWs_append_close l hl
  · rw [if_neg hcn]

theorem findTrailFence_append (l : List Char) (h : ∀ c ∈ l, c ≠ '\x60') :
    findTrailFence (l ++ '\n' :: '\x60' :: '\x60' :: '\x60' :: []) = some l.length := by
  induction l with
  | nil => rfl
  | cons c l ih =>
    have hc : c ≠ '\x60' := h c (List.mem_cons_self _ _)
    have hl : ∀ x ∈ l, x ≠ '\x60' := fun x hx => h x (List.mem_cons_of_mem _ hx)
    show findTrailFence (c :: (l ++ _)) = some (l.length + 1)
    unfold findTrailFence
    rw [if_neg (by rw [trailFenceHere_append_close c l hc hl]; exact Bool.false_ne_true),
      ih hl]
    rfl

theorem stripCodeFences_wrapped (t : String) (h : ∀ c ∈ t.data, c ≠ '\x60') :
    stripCodeFences ("```json\n" ++ t ++ "\n```") = t := by
  unfold stripCodeFences
  have hdata : ("```json\n" ++ t ++ "\n```").data
      = '\x60' :: '\x60' :: '\x60' :: 'j' :: 's' :: 'o' :: 'n' :: '\n'
        :: (t.data ++ '\n' :: '\x60' :: '\x60' :: '\x60' :: []) := by
    rw [String.data_append, String.data_append, List.append_assoc]
    rfl
  rw [hdata, stripLeadJson_fence, stripLeadTicks_no_tick _ h]
  unfold stripTrailFence
  rw [findTrailFence_append _ h]
  show (⟨(t.data ++ _).take t.data.length⟩ : String) = t
  rw [List.take_left]

/-- C7: the fence stripper removes a leading ```` ```json ```` marker
(with its newline) and a trailing ```` ``` ```` from any wrapped text
containing no backtick; in particular the wrapped text
`"```json\n\x7b\"titles\":\"One, Two\"\x7d\n```"` is stripped to the inner
JSON, which strict decoding parses and the route normalizes to
`["One","Two"]` in a 200 response. -/
theorem fence_strip_roundtrip :
    (∀ t : String, (∀ c ∈ t.data, c ≠ '\x60') →
        stripCodeFences ("```json\n" ++ t ++ "\n```") = t) ∧
    stripCodeFences "```json\n\x7b\"titles\":\"One, Two\"\x7d\n```"
      = "\x7b\"titles\":\"One, Two\"\x7d" ∧
    jsonParse "\x7b\"titles\":\"One, Two\"\x7d" = some (.obj [("titles", .str "One, Two")]) ∧
    normalizeTitlesFromJson (.obj [("titles", .str "One, Two")]) = ["One", "Two"] ∧
    publicFinish "```json\n\x7b\"titles\":\"One, Two\"\x7d\n```"
      = .json 200 (successBody ["One", "Two"]) :=
  ⟨stripCodeFences_wrapped, rfl, rfl, rfl, rfl⟩

/-- Witness for C7's universally quantified part at the concrete inner
text `{"titles":"One, Two"}`. -/
theorem fence_strip_roundtrip_witness :
    (∀ c ∈ ("\x7b\"titles\":\"One, Two\"\x7d" : String).data, c ≠ '\x60') ∧
    stripCodeFences ("```json\n" ++ "\x7b\"titles\":\"One, Two\"\x7d" ++ "\n```")
      = "\x7b\"titles\":\"One, Two\"\x7d" :=
  ⟨by decide, (fence_strip_roundtrip.1 "\x7b\"titles\":\"One, Two\"\x7d" (by decide))⟩

theorem selectSrcP1_eq (j : JsValue) : selectSrcP1 j = selectSrc j := by
  cases j with
  | undefinedVal => rfl
  | null => rfl
  | arr xs => rfl
  | obj fields => rfl
  | bool b => cases b <;> rfl
  | num n =>
    unfold selectSrcP1 selectSrc
    simp [optProp, getProp, JsValue.isObjLike, Bool.and_false, jsNullish]
  | str s =>
    unfold selectSrcP1 selectSrc
    simp [optProp, getProp, JsValue.isObjLike, Bool.and_false, jsNullish]
  | fn b r =>
    unfold selectSrcP1 selectSrc
    simp [optProp, getProp, JsValue.isObjLike, Bool.and_false, jsNullish]

theorem mapTitlesP1_strings (xs : List JsValue) (h : ∀ x ∈ xs, x.isStr = true) :
    mapTitlesP1 xs = .ok (xs.map elemToTitle) := by
  induction xs with
  | nil => rfl
  | cons x xs ih =>
    have hx := h x (List.mem_cons_self _ _)
    have hxs : ∀ y ∈ xs, y.isStr = true := fun y hy => h y (List.mem_cons_of_mem _ hy)
    cases x <;> simp only [JsValue.isStr, Bool.false_eq_true] at hx
    case str s =>
      unfold mapTitlesP1
      rw [ih hxs]
      rfl

/-- The inputs on which the two normalizers are proved to agree: the
selected `titles ?? suggestions` source is a string, an array whose
elements are all strings, or neither an array nor an object. -/
def stringsOnlySrc (j : JsValue) : Prop :=
  match selectSrc j with
  | .str _ => True
  | .arr xs => ∀ x ∈ xs, x.isStr = true
  | .obj _ => False
  | _ => True

/-- C5 counterexample: on the payload `{"titles":[{"foo":"X"}]}` the
public-route normalizer takes the object's first string-valued property
and yields `["X"]`, while the part_001 normalizer string-coerces the
object and yields `["[object Object]"]` — the two functions differ. -/
theorem normalizers_differ_counterexample :
    normalizeTitlesFromJson (.obj [("titles", .arr [.obj [("foo", .str "X")]])]) = ["X"] ∧
    normalizeTitlesP1 (.obj [("titles", .arr [.obj [("foo", .str "X")]])])
      = .ok ["[object Object]"] ∧
    (["X"] : List String) ≠ ["[object Object]"] :=
  ⟨rfl, rfl, by decide⟩

/-- C5 (amended): the two normalizers compute the same function on
every input whose `titles`/`suggestions` source is a string, an array
of strings, or neither array nor object (in particular on every
payload following the prompted comma-separated-string schema); they
differ in general on object-shaped entries. -/
theorem normalizers_agree_on_strings (j : JsValue) (h : stringsOnlySrc j) :
    normalizeTitlesP1 j = .ok (normalizeTitlesFromJson j) := by
  unfold normalizeTitlesP1 rawTitlesP1 normalizeTitlesFromJson rawTitles
  rw [selectSrcP1_eq]
  unfold stringsOnlySrc at h
  rcases hsel : selectSrc j with _ | _ | b | n | s | ⟨b, r⟩ | xs | fields
  · rfl
  · rfl
  · rfl
  · rfl
  · rfl
  · rfl
  · rw [hsel] at h
    show (match mapTitlesP1 xs with
        | .ok l => Except.ok (dedupFirst (postProcess l))
        | .error e => .error e)
      = Except.ok (dedupFirst (postProcess ((xs.map elemToTitle).filter (fun t => t != ""))))
    rw [mapTitlesP1_strings xs h]
    show Except.ok (dedupFirst (postProcess (xs.map elemToTitle))) = _
    rw [postProcess_filter_ne]
  · rw [hsel] at h
    exact h.elim

/-!
Totality of the public text extractor (claim C2).
-/

/-- A value that, if it is a (non-throwing) function, returns a string
when invoked. -/
def fnReturnsString (v : JsValue) : Prop :=
  ∀ ret, v = .fn false ret → ∃ s, ret = .str s

theorem extractLastResort_str (r : JsValue) (hfn : r.isFn = false) (hundef : r ≠ .undefinedVal) :
    ∃ s, extractLastResort r = .ok (.str s) := by
  cases r with
  | undefinedVal => exact absurd rfl hundef
  | fn b v => simp [JsValue.isFn] at hfn
  | str s => exact ⟨s, rfl⟩
  | null => exact ⟨_, rfl⟩
  | bool b => cases b
              · exact ⟨_, rfl⟩
              · exact ⟨_, rfl⟩
  | num n => exact ⟨_, rfl⟩
  | arr xs => exact ⟨_, rfl⟩
  | obj fields => exact ⟨_, rfl⟩

theorem publicTailPath_str (r : JsValue) (hfn : r.isFn = false) (hundef : r ≠ .undefinedVal) :
    ∃ s, publicTailPath r = .ok (.str s) := by
  unfold publicTailPath
  split
  · split
    · exact ⟨_, rfl⟩
    · exact extractLastResort_str r hfn hundef
  · exact extractLastResort_str r hfn hundef

theorem publicTextFieldPath_ok_str (r first content : JsValue) (hfn : r.isFn = false)
    (hundef : r ≠ .undefinedVal) (v : JsValue)
    (h : publicTextFieldPath r first content = .ok v) : ∃ s, v = .str s := by
  unfold publicTextFieldPath at h
  split at h
  · exact absurd h (by simp)
  · split at h
    · exact ⟨_, (Except.ok.injEq _ _ ▸ h).symm⟩
    · rcases publicTailPath_str r hfn hundef with ⟨s, hs⟩
      rw [hs] at h
      exact ⟨s, by injection h with h'; exact h'.symm⟩

theorem publicCandidatesPath_ok_str (r first : JsValue) (hfn : r.isFn = false)
    (hundef : r ≠ .undefinedVal) (v : JsValue)
    (h : publicCandidatesPath r first = .ok v) : ∃ s, v = .str s := by
  unfold publicCandidatesPath at h
  split at h
  · split at h
    · exact ⟨_, by injection h with h'; exact h'.symm⟩
    · exact publicTextFieldPath_ok_str r first _ hfn hundef v h
  · exact publicTextFieldPath_ok_str r first _ hfn hundef v h

theorem publicExtractBody_ok_str (r : JsValue) (hfn : r.isFn = false)
    (h1 : fnReturnsString (getProp r "text"))
    (h2 : fnReturnsString (getProp (responseObjOf r) "text"))
    (v : JsValue) (h : publicExtractBody r = .ok v) : ∃ s, v = .str s := by
  have hundef : r ≠ .undefinedVal := by
    intro hr
    rw [hr] at h
    exact absurd h (by simp [publicExtractBody, responseObjOf, getProp,
      JsValue.truthy, JsValue.isObjLike, JsValue.isFn, candidatesOf, optProp, jsOr])
  unfold publicExtractBody at h
  split at h
  · rcases hg : getProp r "text" with _ | _ | b | n | s | ⟨b, ret⟩ | xs | fields <;>
      rw [hg] at h
    · exact absurd h (by simp [callTextFn])
    · exact absurd h (by simp [callTextFn])
    · exact absurd h (by simp [callTextFn])
    · exact absurd h (by simp [callTextFn])
    · exact absurd h (by simp [callTextFn])
    · cases b
      · simp only [callTextFn] at h
        injection h with h'
        rcases h1 ret hg with ⟨s, rfl⟩
        exact ⟨s, h'.symm⟩
      · exact absurd h (by simp [callTextFn])
    · exact absurd h (by simp [callTextFn])
    · exact absurd h (by simp [callTextFn])
  · split at h
    · rcases hg : getProp (responseObjOf r) "text" with _ | _ | b | n | s | ⟨b, ret⟩ | xs | fields <;>
        rw [hg] at h
      · exact absurd h (by simp [callTextFn])
      · exact absurd h (by simp [callTextFn])
      · exact absurd h (by simp [callTextFn])
      · exact absurd h (by simp [callTextFn])
      · exact absurd h (by simp [callTextFn])
      · cases b
        · simp only [callTextFn] at h
          injection h with h'
          rcases h2 ret hg with ⟨s, rfl⟩
          exact ⟨s, h'.symm⟩
        · exact absurd h (by simp [callTextFn])
      · exact absurd h (by simp [callTextFn])
      · exact absurd h (by simp [callTextFn])
    · split at h
      · exact absurd h (by simp)
      · exact absurd h (by simp)
      · split at h
        · exact ⟨_, by injection h with h'; exact h'.symm⟩
        · split at h
          · exact publicCandidatesPath_ok_str r _ hfn hundef v h
          · exact (publicTailPath_str r hfn hundef).elim
              (fun s hs => ⟨s, by rw [hs] at h; injection h with h'; exact h'.symm⟩)

/-- C2 counterexample: extraction is exception-free but not
string-valued on malformed inputs — a response whose `text` accessor
returns the number 42 makes `extractText` return 42, and a bare
function response makes it return `undefined` (`JSON.stringify` of a
function); neither is a string. -/
theorem publicExtractText_nonstring_counterexample :
    publicExtractText (.obj [("text", .fn false (.num 42))]) = .ok (.num 42) ∧
    (∀ s, JsValue.num 42 ≠ .str s) ∧
    publicExtractText (.fn false .null) = .ok .undefinedVal ∧
    (∀ s, JsValue.undefinedVal ≠ .str s) :=
  ⟨rfl, fun _ h => JsValue.noConfusion h, rfl, fun _ h => JsValue.noConfusion h⟩

/-- C2 (amended): the public text extractor never raises — the catch
converts every internal throw into `String(resp)` — and it returns a
string for every response value that is not itself a function and
whose `text` accessors (top-level and under `response`), when they are
functions, either throw or return strings.  (A function-valued
response or a `text` accessor returning a non-string makes the
extractor return that non-string value instead.) -/
theorem publicExtractText_total :
    (∀ resp : JsValue, ∃ v, publicExtractText resp = .ok v) ∧
    (∀ resp : JsValue, resp.isFn = false →
      fnReturnsString (getProp resp "text") →
      fnReturnsString (getProp (responseObjOf resp) "text") →
      ∃ s, publicExtractText resp = .ok (.str s)) := by
  constructor
  · intro resp
    unfold publicExtractText
    rcases hb : publicExtractBody resp with _ | v
    · exact ⟨_, rfl⟩
    · exact ⟨v, rfl⟩
  · intro resp hfn h1 h2
    unfold publicExtractText
    rcases hb : publicExtractBody resp with _ | v
    · exact ⟨_, rfl⟩
    · rcases publicExtractBody_ok_str resp hfn h1 h2 v hb with ⟨s, rfl⟩
      exact ⟨s, rfl⟩

/-- Witness for C2's amended statement at a response carrying only an
`outputText` string. -/
theorem publicExtractText_total_witness :
    ((JsValue.obj [("outputText", JsValue.str "out")]).isFn = false) ∧
    (∃ s, publicExtractText (JsValue.obj [("outputText", JsValue.str "out")])
      = .ok (.str s)) :=
  ⟨rfl, publicExtractText_total.2 (JsValue.obj [("outputText", JsValue.str "out")]) rfl
    (fun _ h => JsValue.noConfusion h) (fun _ h => JsValue.noConfusion h)⟩

/-- Witness for C5's amended agreement at the payload `{"titles": "A, B"}`. -/
theorem normalizers_agree_on_strings_witness :
    stringsOnlySrc (JsValue.obj [("titles", JsValue.str "A, B")]) ∧
    normalizeTitlesP1 (JsValue.obj [("titles", JsValue.str "A, B")])
      = .ok (normalizeTitlesFromJson (JsValue.obj [("titles", JsValue.str "A, B")])) :=
  ⟨True.intro, normalizers_agree_on_strings (JsValue.obj [("titles", JsValue.str "A, B")])
    True.intro⟩

/-!
Tolerance of invalid request bodies (claim C10).
-/

theorem getProp_non_obj (v : JsValue) (hv : ∀ fields, v ≠ JsValue.obj fields)
    (k : String) (hk : k ≠ "length") : getProp v k = .undefinedVal := by
  cases v with
  | obj fields => exact absurd rfl (hv fields)
  | undefinedVal => rfl
  | null => rfl
  | bool b => rfl
  | num n => rfl
  | str s => simp [getProp, hk]
  | fn b r => simp [getProp, hk]
  | arr xs => simp [getProp, hk]

theorem publicFields_none_fields (v : JsValue) (hv : ∀ fields, v ≠ JsValue.obj fields) :
    publicFields (some v) = ⟨none, none, none, none⟩ := by
  cases v with
  | obj fields => exact absurd rfl (hv fields)
  | undefinedVal => rfl
  | null => rfl
  | bool b => cases b <;> rfl
  | num n => simp [publicFields, JsValue.isObjLike, Bool.and_false, getProp, asStringOpt]
  | str s => simp [publicFields, JsValue.isObjLike, Bool.and_false, getProp, asStringOpt]
  | fn b r => rfl
  | arr xs => rfl

theorem getProp_suggestBody_bad (v : JsValue) (hv : ∀ fields, v ≠ JsValue.obj fields)
    (k : String) (hk : k ≠ "length") :
    getProp (suggestBody (some v)) k = .undefinedVal := by
  show getProp (jsOr v (.obj [])) k = .undefinedVal
  unfold jsOr
  split
  · exact getProp_non_obj v hv k hk
  · rfl

theorem publicFinish_status (raw : String) :
    (publicFinish raw).status = 502 ∨ (publicFinish raw).status = 200 := by
  unfold publicFinish
  split
  · exact Or.inl rfl
  · split
    · exact Or.inl rfl
    · exact Or.inr rfl

theorem publicPOST_status (b : Option JsValue) (env : Option String)
    (gen : String → GenOutcome) :
    (publicPOST b env gen).response.status = 200 ∨
    (publicPOST b env gen).response.status = 500 ∨
    (publicPOST b env gen).response.status = 502 := by
  unfold publicPOST
  split
  · exact Or.inr (Or.inl rfl)
  · split
    · exact Or.inr (Or.inl rfl)
    · split
      · rcases publicFinish_status _ with h | h
        · exact Or.inr (Or.inr h)
        · exact Or.inl h
      · exact Or.inr (Or.inl rfl)

theorem suggestFinish_status (raw : String) : (suggestFinish raw).status = 200 := by
  unfold suggestFinish
  split
  · rfl
  · rfl

theorem suggestPOST_status (b : Option JsValue) (env : Option String)
    (gen : String → GenOutcome) :
    (suggestPOST b env gen).response.status = 200 ∨
    (suggestPOST b env gen).response.status = 500 := by
  unfold suggestPOST
  split
  · exact Or.inr rfl
  · split
    · exact Or.inr rfl
    · split
      · exact Or.inr rfl
      · split
        · exact Or.inl (suggestFinish_status _)
        · exact Or.inr rfl

/-- C10: a POST body that is invalid JSON (`none`) or not a JSON
object makes both endpoints behave exactly as if the body were the
empty object — all four request fields are treated as absent, the
parse failure is swallowed, and neither endpoint can answer with a
4xx status (their statuses are always 200, 500 or 502); the public
endpoint additionally keeps only the string elements of an array
`keywords` field. -/
theorem invalid_body_tolerated (b : Option JsValue) (envKey : Option String)
    (gen : String → GenOutcome)
    (hbad : b = none ∨ ∃ v, b = some v ∧ ∀ fields, v ≠ JsValue.obj fields) :
    publicPOST b envKey gen = publicPOST (some (.obj [])) envKey gen ∧
    suggestPOST b envKey gen = suggestPOST (some (.obj [])) envKey gen ∧
    ¬(400 ≤ (publicPOST b envKey gen).response.status ∧
      (publicPOST b envKey gen).response.status < 500) ∧
    ¬(400 ≤ (suggestPOST b envKey gen).response.status ∧
      (suggestPOST b envKey gen).response.status < 500) ∧
    (∀ ks rest,
      (publicFields (some (.obj (("keywords", .arr ks) :: rest)))).keywords
        = some (ks.filterMap asStringOpt)) := by
  have hpf : publicFields b = publicFields (some (.obj [])) := by
    rcases hbad with rfl | ⟨v, rfl, hv⟩
    · rfl
    · rw [publicFields_none_fields v hv]
      rfl
  have hsd : ∀ k, k ≠ "length" → getProp (suggestBody b) k = .undefinedVal := by
    rcases hbad with rfl | ⟨v, rfl, hv⟩
    · intro k _
      rfl
    · intro k hk
      exact getProp_suggestBody_bad v hv k hk
  refine ⟨?_, ?_, ?_, ?_, ?_⟩
  · unfold publicPOST
    rw [hpf]
  · unfold suggestPOST
    rw [hsd "description" (by decide), hsd "keywords" (by decide),
      hsd "niche" (by decide), hsd "language" (by decide)]
    rfl
  · rcases publicPOST_status b envKey gen with h | h | h <;> omega
  · rcases suggestPOST_status b envKey gen with h | h <;> omega
  · intro ks rest
    rfl

/-- Witness for C10 at the concrete non-object body `"nope"` with a
missing credential, and the keywords array `["a", 3]`. -/
theorem invalid_body_tolerated_witness :
    ((some (JsValue.str "nope") : Option JsValue) = none ∨
      ∃ v, (some (JsValue.str "nope") : Option JsValue) = some v ∧
        ∀ fields, v ≠ JsValue.obj fields) ∧
    publicPOST (some (JsValue.str "nope")) none (fun _ => .returns .null)
      = publicPOST (some (.obj [])) none (fun _ => .returns .null) ∧
    (publicFields (some (.obj [("keywords",
        .arr [JsValue.str "a", JsValue.num 3])]))).keywords = some ["a"] :=
  ⟨Or.inr ⟨JsValue.str "nope", rfl, fun _ h => JsValue.noConfusion h⟩,
    (invalid_body_tolerated (some (JsValue.str "nope")) none (fun _ => .returns .null)
      (Or.inr ⟨JsValue.str "nope", rfl, fun _ h => JsValue.noConfusion h⟩)).1,
    ((invalid_body_tolerated (some (JsValue.str "nope")) none (fun _ => .returns .null)
      (Or.inr ⟨JsValue.str "nope", rfl, fun _ h => JsValue.noConfusion h⟩)).2.2.2.2
      [JsValue.str "a", JsValue.num 3] [])⟩
